import Mathlib

/-!
Verification of the `httpc` HTTP client wrapper (package `httpc`,
files `retry.go`, `client.go`, `options.go`, `errors.go`).

The development shallowly embeds the program:

* `retry.go`: `shouldRetry`, `backoff`, `NewRetryTransport` and
  `RetryTransport.RoundTrip` become `Httpc.shouldRetry`, `Httpc.backoffNs`,
  `Httpc.newRetryMax` and `Httpc.roundTrip`.  The base transport is an
  oracle `Nat → Outcome` giving the outcome of each physical attempt; a
  run is summarised by the body bytes handed to the base transport on each
  attempt, the sleeps performed, and the final outcome (with `none`
  modelling a Go runtime panic).
* `client.go` (current snapshot, the one declaring `ErrStatusCode` and a
  read byte limit): URL parsing/resolution, header merging and the per-verb
  pipelines `Get`/`Post` become `Httpc.parseRequestURI`,
  `Httpc.resolveReference`, `Httpc.applyHeaders`, `Httpc.clientGet` and
  `Httpc.clientPost`.  Strings are modelled as `List Char` (the `data` of a
  Lean `String`) so that everything evaluates inside the kernel; bodies are
  byte lists (`List Nat`).
* `client.go`/`options.go` (earlier snapshot, the one with
  `WithRateLimiter`): the rate-limiter admission loop at the top of every
  verb method becomes `Httpc.rateLimitGate`, with the limiter an oracle
  `Nat → LimiterReply` giving the reply to the n-th `RateLimitCtx` check.
-/

namespace Httpc

/-- An HTTP response as the retry transport sees it: a non-nil
`*http.Response` carrying a status code and body bytes.  Status codes from a
server are non-negative, so `Nat` is used for them. -/
structure Response where
  statusCode : Nat
  body : List Nat
  deriving Repr, DecidableEq

/-- The outcome of one call to the base transport, per the
`http.RoundTripper` contract: either a response together with a nil error,
or a nil response together with a non-nil error.  Errors are opaque and
identified by a tag. -/
inductive Outcome where
  | resp (r : Response)
  | err (e : Nat)
  deriving Repr, DecidableEq

/-- `shouldRetry` (retry.go): retry when the send returned an error, or when
`resp.StatusCode/10 != 20` (integer division, so exactly the statuses
outside 200..209 are classified retryable). -/
def shouldRetry : Outcome → Bool
  | .err _ => true
  | .resp r => r.statusCode / 10 != 20

/-- Two's-complement wrap-around of a mathematical integer into the int64
range — the semantics of overflowing Go int64 arithmetic. -/
def int64Wrap (x : Int) : Int := (x + 2 ^ 63) % 2 ^ 64 - 2 ^ 63

/-- `backoff` (retry.go): `time.Duration(math.Pow(2, float64(retries))) *
time.Second`, in nanoseconds.  For `retries ≤ 62`, `math.Pow(2, retries)`
is exactly `2 ^ retries` in float64 (exact below `2^53`, and exact powers
of two beyond) and its conversion to the int64 `time.Duration` is exact;
the multiplication by `time.Second = 10^9` is int64 arithmetic and wraps on
overflow, which happens from `retries = 34` on (`2^34 * 10^9` exceeds
`2^63 - 1`), yielding a duration that is not `2^retries` seconds — at 34 a
negative one, for which `time.Sleep` returns immediately without delay.
(For `retries ≥ 63` the float-to-int64 conversion itself is
implementation-defined in Go; no theorem relies on that range.) -/
def backoffNs (retries : Nat) : Int := int64Wrap (2 ^ retries * 1000000000)

/-- `DefaultRetryLimit` (retry.go). -/
def DefaultRetryLimit : Int := 3

/-- `NewRetryTransport` (retry.go): the stored retry limit starts at
`DefaultRetryLimit` and is replaced by the argument whenever the argument is
non-zero.  Go ints are modelled as `Int`. -/
def newRetryMax (limit : Int) : Int :=
  if limit != 0 then limit else DefaultRetryLimit

/-- The retry loop of `RetryTransport.RoundTrip` (retry.go), after the first
attempt.  Arguments mirror the Go locals:

* `base` is the wrapped transport, indexed by physical attempt number;
* `hasBody` is `req.Body != nil` (stable across the loop: once non-nil the
  body is only ever reassigned to another non-nil reader);
* `bodyBytesOuter` is the function-level `bodyBytes` slice declared by
  `var bodyBytes []byte` — the slice the loop body re-buffers from;
* `cur` is the current `(resp, err)` pair;
* `retries` is the loop counter; the remaining iteration budget
  `retryMax - retries` is passed as fuel, which makes the recursion
  structural.

Each iteration that runs: sleeps `backoff(retries)` — the recorded value is
the `time.Duration` handed to `time.Sleep`; a non-positive one produces no
actual delay — then drains the previous response body — `resp.Body`
dereferences `resp`, so when the previous outcome was a transport error
(`resp == nil`) the program panics with a nil-pointer dereference, modelled
by outcome `none` — then resets `req.Body` to a buffer over
`bodyBytesOuter` and re-sends.  The result collects the sleeps, the body
bytes handed to the base transport by each re-send, and the final
outcome. -/
def roundTripLoop (base : Nat → Outcome) (hasBody : Bool)
    (bodyBytesOuter : List Nat) (cur : Outcome) (retries : Nat) :
    Nat → List Int × List (Option (List Nat)) × Option Outcome
  | 0 => ([], [], some cur)
  | fuel + 1 =>
    if shouldRetry cur then
      match cur with
      | .err _ => ([backoffNs retries], [], none)
      | .resp _ =>
        let sent : Option (List Nat) := if hasBody then some bodyBytesOuter else none
        let rest := roundTripLoop base hasBody bodyBytesOuter
          (base (retries + 1)) (retries + 1) fuel
        (backoffNs retries :: rest.1, sent :: rest.2.1, rest.2.2)
    else ([], [], some cur)

/-- The trace of one `RetryTransport.RoundTrip` call: the body bytes handed
to the base transport on each physical attempt (in order), the sleeps
performed between attempts, and the final outcome (`none` models a runtime
panic). -/
structure RunTrace where
  sentBodies : List (Option (List Nat))
  sleepsNs : List Int
  outcome : Option Outcome
  deriving Repr, DecidableEq

/-- `RetryTransport.RoundTrip` (retry.go).  `origBody` is the content of the
original request body stream (`none` when `req.Body == nil`).

Body capture: when `req.Body != nil` the code runs
`bodyBytes, err := io.ReadAll(req.Body)` — the `:=` declares fresh local
variables that shadow the function-level `bodyBytes` and `err`, so the bytes
just read land only in the inner variable, and the function-level
`bodyBytes` keeps its zero value `nil` (here the empty list).  `req.Body` is
then set to a buffer over the inner variable, so the first attempt is handed
the original bytes, while every later attempt re-buffers from the
still-empty function-level slice.  Reading the (pure, in-memory) modelled
stream cannot fail, so the `ErrRetryCopy` early return does not arise.

The loop guard is `shouldRetry(resp, err) && retries < t.retryMax`; with the
Go `int` limit `retryMax`, at most `retryMax.toNat` iterations run, which is
the fuel given to `roundTripLoop`. -/
def roundTrip (base : Nat → Outcome) (retryMax : Int)
    (origBody : Option (List Nat)) : RunTrace :=
  let bodyBytesOuter : List Nat := []
  let hasBody := origBody.isSome
  let r := roundTripLoop base hasBody bodyBytesOuter (base 0) 0 retryMax.toNat
  { sentBodies := origBody :: r.2.1, sleepsNs := r.1, outcome := r.2.2 }

/-- The sleeps recorded by the retry loop starting at counter `r` are the
backoffs of the consecutive counters `r, r + 1, ...`. -/
theorem roundTripLoop_sleeps (base : Nat → Outcome) (hasBody : Bool)
    (outer : List Nat) (cur : Outcome) (r fuel : Nat) :
    ∃ k, (roundTripLoop base hasBody outer cur r fuel).1
      = (List.range' r k).map backoffNs := by
  induction fuel generalizing cur r with
  | zero => exact ⟨0, rfl⟩
  | succ fuel ih =>
    by_cases hr : shouldRetry cur
    · match cur with
      | .err e =>
        refine ⟨1, ?_⟩
        simp [roundTripLoop, hr]
      | .resp resp =>
        obtain ⟨k, hk⟩ := ih (base (r + 1)) (r + 1)
        refine ⟨k + 1, ?_⟩
        simp [roundTripLoop, hr, hk, List.range'_succ]
    · refine ⟨0, ?_⟩
      simp [roundTripLoop, hr]

/-- Wrapping is the identity on values already inside the non-negative half
of the int64 range. -/
theorem int64Wrap_eq_self (x : Int) (h0 : 0 ≤ x) (h1 : x < 2 ^ 63) :
    int64Wrap x = x := by
  have e63 : (2 : Int) ^ 63 = 9223372036854775808 := by norm_num
  have e64 : (2 : Int) ^ 64 = 18446744073709551616 := by norm_num
  rw [e63] at h1
  unfold int64Wrap
  rw [e63, e64, Int.emod_eq_of_lt (by omega) (by omega)]
  omega

/-- Up to 33 retries the int64 backoff computation does not overflow, so the
duration is exactly `2 ^ n` seconds. -/
theorem backoffNs_eq_of_le (n : Nat) (h : n ≤ 33) :
    backoffNs n = 2 ^ n * 1000000000 := by
  have hpow : (2 : Int) ^ n ≤ 2 ^ 33 := pow_le_pow_right₀ (by norm_num) h
  have hlt : (2 : Int) ^ n * 1000000000 < 2 ^ 63 := by
    have hle : (2 : Int) ^ n * 1000000000 ≤ 2 ^ 33 * 1000000000 :=
      mul_le_mul_of_nonneg_right hpow (by norm_num)
    have : (2 : Int) ^ 33 * 1000000000 < 2 ^ 63 := by norm_num
    omega
  have hpos : (0 : Int) ≤ 2 ^ n * 1000000000 := by positivity
  exact int64Wrap_eq_self _ hpos hlt

end Httpc

namespace Httpc

/-- `DefaultTimeout` (client.go). -/
def DefaultTimeout : Int := 10

/-- The timeout computation in `NewClient` (client.go): start from
`DefaultTimeout * int(time.Second)` (nanoseconds) and replace it by
`cfg.Timeout` — unconverted — whenever `cfg.Timeout` is non-zero.  The
result is used directly as `time.Duration(timeout)`, i.e. nanoseconds. -/
def clientTimeoutNs (cfgTimeout : Int) : Int :=
  if cfgTimeout != 0 then cfgTimeout else DefaultTimeout * 1000000000

end Httpc

namespace Httpc

/-- Does the second character list start with the first?  Used by the URL
model in place of the byte comparisons of `net/url`. -/
def leadsWith : List Char → List Char → Bool
  | [], _ => true
  | _ :: _, [] => false
  | p :: ps, c :: cs => p == c && leadsWith ps cs

/-- Split a character list at the first occurrence of `sep`, returning the
part before it and the part after it; `none` when `sep` does not occur. -/
def splitFirst (sep : List Char) : List Char → Option (List Char × List Char)
  | [] => none
  | c :: rest =>
    if leadsWith sep (c :: rest) then some ([], List.drop sep.length (c :: rest))
    else
      match splitFirst sep rest with
      | some (pre, post) => some (c :: pre, post)
      | none => none

/-- A URL as this client uses it: scheme, host and path.  `net/url` is an
external collaborator of the program; the model covers the URL shapes the
client's call sites produce — absolute `scheme://host/path` URLs and rooted
`/path` references, without user info, query, fragment, opaque part or dot
segments. -/
structure Url where
  scheme : List Char
  host : List Char
  path : List Char
  deriving Repr, DecidableEq

/-- Model of `url.ParseRequestURI` on the shapes above: a rooted path parses
to a reference with empty scheme and host; `scheme://host/path` parses into
its three parts (path empty when there is no slash after the host); anything
else is rejected, as `ParseRequestURI` rejects non-absolute, non-rooted
input. -/
def parseRequestURI (s : List Char) : Option Url :=
  if leadsWith ['/'] s then some ⟨[], [], s⟩
  else
    match splitFirst "://".data s with
    | none => none
    | some (sch, rest) =>
      if sch = [] then none
      else
        match splitFirst ['/'] rest with
        | none => some ⟨sch, rest, []⟩
        | some (host, after) => some ⟨sch, host, '/' :: after⟩

/-- The prefix of `p` up to and including its last slash (empty when `p` has
no slash) — the base part kept by path merging in `net/url`. -/
def upToLastSlash (p : List Char) : List Char :=
  (p.reverse.dropWhile (fun c => c != '/')).reverse

/-- Path merge of RFC 3986 §5.3 as `net/url` performs it for a non-rooted
reference path, restricted to inputs without dot segments: the reference is
appended after the base path's last slash, and the result is rooted. -/
def mergePaths (b r : List Char) : List Char :=
  let merged := upToLastSlash b ++ r
  if leadsWith ['/'] merged then merged else '/' :: merged

/-- Model of `(*url.URL).ResolveReference` on the shapes above: an absolute
reference wins outright; a host-relative reference takes the base scheme; an
empty reference keeps the base; a rooted reference path replaces the base
path; any other path is merged. -/
def resolveReference (base ref : Url) : Url :=
  if ref.scheme ≠ [] then ref
  else if ref.host ≠ [] then ⟨base.scheme, ref.host, ref.path⟩
  else if ref.path = [] then ⟨base.scheme, base.host, base.path⟩
  else if leadsWith ['/'] ref.path then ⟨base.scheme, base.host, ref.path⟩
  else ⟨base.scheme, base.host, mergePaths base.path ref.path⟩

/-- Model of `(*url.URL).String` on the shapes above. -/
def urlString (u : Url) : List Char :=
  if u.scheme = [] then u.path else u.scheme ++ "://".data ++ u.host ++ u.path

/-- The empty `http.Header`. -/
def emptyHeader : String → Option String := fun _ => none

/-- `req.Header.Set(key, val)`: bind `key` to `val`, replacing any previous
value.  Go canonicalizes header keys before storing them; since every header
in the program goes through `Set` with the same canonicalization, modelling
keys as exact strings preserves the merge semantics. -/
def headerSet (h : String → Option String) (k v : String) :
    String → Option String :=
  fun q => if q = k then some v else h q

/-- The `for key, val := range m { req.Header.Set(key, val) }` loops of every
verb method: fold `headerSet` over the bindings.  Go map iteration order is
unspecified, but keys within one map are unique, so the order within one
list never matters; the program's two loops run defaults first, per-call
headers second. -/
def applyHeaders (h : String → Option String)
    (kvs : List (String × String)) : String → Option String :=
  kvs.foldl (fun acc kv => headerSet acc kv.1 kv.2) h

/-- `Mib` (client.go): `1 << 20`. -/
def Mib : Int := 1048576

/-- `DefaultReadByteLimit` (client.go): `15 * Mib`. -/
def DefaultReadByteLimit : Int := 15 * Mib

/-- The limit computation on every non-2xx path (client.go): start from
`DefaultReadByteLimit` and replace it by `c.limit` whenever `c.limit` is
non-zero. -/
def readLimit (climit : Int) : Int :=
  if climit != 0 then climit else DefaultReadByteLimit

/-- The client state the pipeline reads (current snapshot of client.go):
base URL, default headers as applied by the range loop, and the configured
read byte limit (`cfg.ReadByteLimit`, zero meaning unset). -/
structure Client where
  baseUrl : Url
  headers : List (String × String)
  limit : Int

/-- The errors a verb method can return (current snapshot of errors in
client.go), payloads included where the claims inspect them. -/
inductive ClientError where
  | invalidResource
  | newRequest
  | request (e : Nat)
  | statusCode (code : Nat) (payload : List Nat)
  | decode
  deriving Repr, DecidableEq

/-- What one `Client.Get` call did: the URL the outbound request targeted
(`none` when the resource failed to parse and nothing was sent), the merged
headers set on it, the returned (response, error) pair — `Except` models the
Go convention that exactly one of the two is meaningful — and whether the
pipeline closed the response body before returning. -/
structure GetOutput where
  sentUrl : Option (List Char)
  sentHeaders : String → Option String
  result : Except ClientError Response
  respBodyClosed : Bool

/-- `Client.Get` (current snapshot of client.go).  `doResult` is what
`c.http.Do(req)` returned.  Steps, as in the source: parse the resource
(failure → `ErrInvalidResource`, nothing sent); resolve against the base
URL; build the request — `http.NewRequestWithContext` cannot fail on a URL
string produced by `ResolveReference` from parsed parts, so `ErrNewRequest`
does not arise here; set default then per-call headers; send.  A transport
error returns `ErrRequest` with the body untouched.  A response with
`resp.StatusCode/10 != 20` takes the error path: the body is closed
(deferred), `io.Copy(errBody, io.LimitReader(resp.Body, limit))` reads
`min(limit, len(body))` bytes — reading the in-memory modelled body cannot
fail, so `ErrCopy` does not arise — and `ErrStatusCode{code, payload}` is
returned with a nil response.  Otherwise the response is returned with its
body left open. -/
def clientGet (c : Client) (resource : String)
    (callHeaders : List (String × String)) (doResult : Outcome) : GetOutput :=
  match parseRequestURI resource.data with
  | none => ⟨none, emptyHeader, .error .invalidResource, false⟩
  | some pathUrl =>
    let fullUrl := resolveReference c.baseUrl pathUrl
    let hdrs := applyHeaders (applyHeaders emptyHeader c.headers) callHeaders
    match doResult with
    | .err e => ⟨some (urlString fullUrl), hdrs, .error (.request e), false⟩
    | .resp r =>
      if r.statusCode / 10 != 20 then
        let payload := r.body.take (readLimit c.limit).toNat
        ⟨some (urlString fullUrl), hdrs,
          .error (.statusCode r.statusCode payload), true⟩
      else
        ⟨some (urlString fullUrl), hdrs, .ok r, false⟩

/-- What one `Client.Post` call did: as `GetOutput`, plus the final value of
the caller's decode destination (`dest`, initially `dest0`) and whether the
body decoder was ever invoked. -/
structure PostOutput (α : Type) where
  sentUrl : Option (List Char)
  sentHeaders : String → Option String
  result : Except ClientError Response
  dest : α
  decodeAttempted : Bool
  respBodyClosed : Bool

/-- `Client.Post` (current snapshot of client.go); Put, Delete and Patch
share the identical skeleton.  Differences from `clientGet`: after a 2xx
status, when a decode target was supplied (`decoded != nil`, here
`hasTarget`), `json.NewDecoder(resp.Body).Decode(decoded)` runs — modelled
by `decodeFn` on the body bytes, writing the decoded value into the
destination on success; on decode failure the body is closed and `ErrDecode`
returned, the destination keeping its prior value (the source passes the
pointer only to `Decode`). -/
def clientPost {α : Type} (c : Client) (resource : String)
    (callHeaders : List (String × String)) (doResult : Outcome)
    (hasTarget : Bool) (decodeFn : List Nat → Option α) (dest0 : α) :
    PostOutput α :=
  match parseRequestURI resource.data with
  | none => ⟨none, emptyHeader, .error .invalidResource, dest0, false, false⟩
  | some pathUrl =>
    let fullUrl := resolveReference c.baseUrl pathUrl
    let hdrs := applyHeaders (applyHeaders emptyHeader c.headers) callHeaders
    match doResult with
    | .err e =>
      ⟨some (urlString fullUrl), hdrs, .error (.request e), dest0, false, false⟩
    | .resp r =>
      if r.statusCode / 10 != 20 then
        let payload := r.body.take (readLimit c.limit).toNat
        ⟨some (urlString fullUrl), hdrs,
          .error (.statusCode r.statusCode payload), dest0, false, true⟩
      else if hasTarget then
        match decodeFn r.body with
        | some v => ⟨some (urlString fullUrl), hdrs, .ok r, v, true, false⟩
        | none =>
          ⟨some (urlString fullUrl), hdrs, .error .decode, dest0, true, true⟩
      else ⟨some (urlString fullUrl), hdrs, .ok r, dest0, false, false⟩

/-- The reply of one `RateLimitCtx(ctx, key, 1)` check (earlier snapshot of
client.go/options.go, the one with `WithRateLimiter`): a backing-store
error, a denial carrying `context.RetryAfter`, or permission. -/
inductive LimiterReply where
  | err (e : Nat)
  | limited (retryAfterNs : Nat)
  | ok
  deriving Repr, DecidableEq

/-- How the admission loop ended. -/
inductive GateResult where
  | notReached
  | admitted
  | aborted (e : Nat)
  | stillLimited
  deriving Repr, DecidableEq

/-- The `for { limited, context, err := c.RateLimiter.RateLimitCtx(...) }`
loop: a store error returns it at once; permission breaks out; a denial
sleeps `context.RetryAfter` and re-checks.  `lim` gives the reply to each
successive check; the loop itself is unbounded, so the model takes fuel and
reports `stillLimited` when the fuel ends while every reply was a denial. -/
def rateLimitLoop (lim : Nat → LimiterReply) : Nat → GateResult × List Nat
  | 0 => (.stillLimited, [])
  | fuel + 1 =>
    match lim 0 with
    | .err e => (.aborted e, [])
    | .ok => (.admitted, [])
    | .limited d =>
      let rest := rateLimitLoop (fun i => lim (i + 1)) fuel
      (rest.1, d :: rest.2)

/-- The rate-gate section of one verb call (earlier snapshot of client.go;
Get, Post, Put, Delete, Patch and Stream all begin identically): the quota
key every check passes, how the loop ended, the sleeps performed, and
whether control went on to build and send the request. -/
structure GateOutput where
  quotaKey : Option (List Char)
  result : GateResult
  sleepsNs : List Nat
  requestSent : Bool

/-- The prelude of `Client.Get` up to the request build (earlier snapshot of
client.go): parse the resource (failure returns `InvalidResource` before any
limiter check), then, when a rate limiter is configured, run the admission
loop with key `c.BaseUrl.String()` — the base address, not the resolved
per-resource URL.  The request is sent only once the loop breaks out with
permission. -/
def clientGetGate (c : Client) (resource : String)
    (limiter : Option (Nat → LimiterReply)) (fuel : Nat) : GateOutput :=
  match parseRequestURI resource.data with
  | none => ⟨none, .notReached, [], false⟩
  | some _ =>
    match limiter with
    | none => ⟨none, .admitted, [], true⟩
    | some lim =>
      let r := rateLimitLoop lim fuel
      ⟨some (urlString c.baseUrl), r.1, r.2,
        match r.1 with | .admitted => true | _ => false⟩

end Httpc

namespace Httpc

/-- Looking a key up in headers folded over a start map `h` gives the list's
own binding when the list binds the key, and falls back to `h` otherwise. -/
theorem applyHeaders_apply (h : String → Option String)
    (kvs : List (String × String)) (k : String) :
    applyHeaders h kvs k
      = match applyHeaders emptyHeader kvs k with
        | some v => some v
        | none => h k := by
  induction kvs generalizing h with
  | nil => simp [applyHeaders, emptyHeader]
  | cons p rest ih =>
    simp only [applyHeaders, List.foldl_cons] at ih ⊢
    rw [ih (headerSet h p.1 p.2), ih (headerSet emptyHeader p.1 p.2)]
    cases hrest : applyHeaders emptyHeader rest k with
    | some v => simp [applyHeaders] at hrest; simp [hrest]
    | none =>
      simp [applyHeaders] at hrest
      simp only [hrest]
      by_cases hk : k = p.1 <;> simp [headerSet, hk, emptyHeader]

/-- When every check before the n-th is a denial and the n-th is a store
error, the admission loop (given fuel past n) aborts with that error after
sleeping each denial's retry-after in order. -/
theorem rateLimitLoop_aborts (lim : Nat → LimiterReply) (d : Nat → Nat)
    (n : Nat) (e : Nat) :
    ∀ fuel, (∀ i, i < n → lim i = .limited (d i)) → lim n = .err e →
      n < fuel →
      rateLimitLoop lim fuel = (.aborted e, (List.range n).map d) := by
  induction n generalizing lim d with
  | zero =>
    intro fuel _ hn hfuel
    match fuel, hfuel with
    | fuel + 1, _ => simp [rateLimitLoop, hn]
  | succ n ih =>
    intro fuel hlim hn hfuel
    match fuel, hfuel with
    | fuel + 1, hfuel =>
      have h0 : lim 0 = .limited (d 0) := hlim 0 (Nat.succ_pos n)
      have hrest := ih (fun i => lim (i + 1)) (fun i => d (i + 1)) fuel
        (fun i hi => hlim (i + 1) (Nat.succ_lt_succ hi)) hn
        (Nat.lt_of_succ_lt_succ hfuel)
      simp [rateLimitLoop, h0, hrest, List.range_succ_eq_map,
        List.map_map, Function.comp]

/-- When every check before the n-th is a denial and the n-th grants
permission, the admission loop (given fuel past n) admits after sleeping
each denial's retry-after in order. -/
theorem rateLimitLoop_admits (lim : Nat → LimiterReply) (d : Nat → Nat)
    (n : Nat) :
    ∀ fuel, (∀ i, i < n → lim i = .limited (d i)) → lim n = .ok →
      n < fuel →
      rateLimitLoop lim fuel = (.admitted, (List.range n).map d) := by
  induction n generalizing lim d with
  | zero =>
    intro fuel _ hn hfuel
    match fuel, hfuel with
    | fuel + 1, _ => simp [rateLimitLoop, hn]
  | succ n ih =>
    intro fuel hlim hn hfuel
    match fuel, hfuel with
    | fuel + 1, hfuel =>
      have h0 : lim 0 = .limited (d 0) := hlim 0 (Nat.succ_pos n)
      have hrest := ih (fun i => lim (i + 1)) (fun i => d (i + 1)) fuel
        (fun i hi => hlim (i + 1) (Nat.succ_lt_succ hi)) hn
        (Nat.lt_of_succ_lt_succ hfuel)
      simp [rateLimitLoop, h0, hrest, List.range_succ_eq_map,
        List.map_map, Function.comp]

end Httpc

namespace Httpc

/-- C1: the claim states that the body bytes handed to the base transport on
every attempt K equal the bytes handed to it on attempt 1.  The code
violates this: `bodyBytes, err := io.ReadAll(req.Body)` shadows the
function-level `bodyBytes`, so every retry re-buffers from the still-nil
outer slice.  Concretely, with body bytes `[104, 105]`, a persistent 500
response and retry limit 3, attempt 1 sends `[104, 105]` while attempts 2-4
send the empty body. -/
theorem roundTrip_retry_sends_empty_body :
    roundTrip (fun _ => .resp ⟨500, []⟩) 3 (some [104, 105]) =
      { sentBodies := [some [104, 105], some [], some [], some []],
        sleepsNs := [backoffNs 0, backoffNs 1, backoffNs 2],
        outcome := some (.resp ⟨500, []⟩) } ∧
    (roundTrip (fun _ => .resp ⟨500, []⟩) 3 (some [104, 105])).sentBodies.get? 1
      ≠ (roundTrip (fun _ => .resp ⟨500, []⟩) 3 (some [104, 105])).sentBodies.get? 0 := by
  constructor
  · rfl
  · decide

/-- C2: the claim states that when every attempt yields a retryable outcome
(transport error or non-2xx status), exactly `retryLimit + 1` attempts are
made and the last attempt's response/error is returned unchanged.  The code
violates this in the transport-error branch: after an errored attempt
`resp` is nil, and the loop body dereferences `resp.Body`, a nil-pointer
panic.  Concretely, with the default limit (`newRetryMax 0 = 3`) and a base
transport that always errors, only one physical attempt happens and the
call crashes instead of returning the fourth attempt's error. -/
theorem roundTrip_transport_error_panics :
    newRetryMax 0 = 3 ∧
    (roundTrip (fun _ => .err 7) (newRetryMax 0) none).outcome = none ∧
    (roundTrip (fun _ => .err 7) (newRetryMax 0) none).sentBodies.length = 1 := by
  decide

/-- C3: the claim states that an outcome is retryable iff the send errored
or the status is outside 200..299.  The code computes
`resp.StatusCode/10 != 20`, which also classifies the genuine 2xx statuses
210..299 as retryable: status 226 (IM Used) is retried even though it lies
in the 2xx class, contradicting the function's own doc comment. -/
theorem shouldRetry_misclassifies_226 :
    shouldRetry (.resp ⟨226, []⟩) = true ∧ 200 ≤ 226 ∧ 226 ≤ 299 ∧
    shouldRetry (.err 0) = true ∧ shouldRetry (.resp ⟨200, []⟩) = false := by
  decide

/-- C4 counterexample: the claim states the delay before retry attempt
n + 1 is exactly `2 ^ n` seconds for every n, with no upper cap.  At n = 34
the int64 multiplication `2^34 * 10^9` overflows `MaxInt64`: the duration
the code computes — recorded at index 34 of a run with 35 retries — is the
negative wrap `-1266874889709551616`, not `2^34` seconds, and `time.Sleep`
of a negative duration inserts no delay at all. -/
theorem backoff_overflow_counterexample :
    backoffNs 34 = -1266874889709551616 ∧
    backoffNs 34 ≠ 2 ^ 34 * 1000000000 ∧
    (roundTrip (fun _ => .resp ⟨500, []⟩) 35 none).sleepsNs.get? 34
      = some (-1266874889709551616) := by
  decide

/-- C4 amended: for every retry attempt with n ≤ 33 (first retry n = 0) the
delay inserted before attempt n + 1 is exactly `2 ^ n` seconds — pure
exponential, no jitter, strictly growing over that range; from n = 34 on
the int64 computation of `2 ^ n` seconds overflows (at n = 34 wrapping to a
negative duration, so no delay is inserted), so the growth is cut off by
overflow rather than continuing without cap. -/
theorem backoff_exponential_until_overflow :
    (∀ (base : Nat → Outcome) (retryMax : Int) (origBody : Option (List Nat))
        (i : Nat) (h : i < (roundTrip base retryMax origBody).sleepsNs.length),
        i ≤ 33 →
        (roundTrip base retryMax origBody).sleepsNs.get ⟨i, h⟩
          = 2 ^ i * 1000000000) ∧
    (∀ n m : Nat, n < m → m ≤ 33 → backoffNs n < backoffNs m) ∧
    backoffNs 34 < 0 := by
  refine ⟨?_, ?_, by decide⟩
  · intro base retryMax origBody i h hi
    obtain ⟨k, hk⟩ := roundTripLoop_sleeps base origBody.isSome [] (base 0) 0
      retryMax.toNat
    have hs : (roundTrip base retryMax origBody).sleepsNs
        = (List.range' 0 k).map backoffNs := by
      simp [roundTrip, hk]
    rw [List.get_of_eq hs ⟨i, h⟩]
    have hbo := backoffNs_eq_of_le i hi
    simp [List.get_eq_getElem, List.getElem_map, List.getElem_range'_1, hbo]
  · intro n m hnm hm
    rw [backoffNs_eq_of_le n (le_trans (Nat.le_of_lt hnm) hm),
      backoffNs_eq_of_le m hm]
    have h2 : (2 : Int) ^ n < 2 ^ m := pow_lt_pow_right₀ (by norm_num) hnm
    exact mul_lt_mul_of_pos_right h2 (by norm_num)

/-- C4 witness: the amended theorem applied at a concrete run — base
transport always answering 500, retry limit 3 — gives the second sleep as
exactly 2 seconds. -/
theorem backoff_exponential_until_overflow_witness :
    (roundTrip (fun _ => .resp ⟨500, []⟩) 3 none).sleepsNs.get ⟨1, by decide⟩
      = 2 ^ 1 * 1000000000 :=
  backoff_exponential_until_overflow.1 (fun _ => .resp ⟨500, []⟩) 3 none 1
    (by decide) (by decide)

/-- C5: on a final non-2xx status, the pipeline returns
`ErrStatusCode{status, payload}` and no response — the `.error` side of the
model is Go's `return nil, err` — with the response body closed by the
pipeline; the payload is the body truncated to the configured read limit:
never longer than the limit, and exactly the limit when the body is longer;
the limit defaults to 15 MiB when unconfigured. -/
theorem get_non2xx_truncated_error (c : Client) (resource : String)
    (hs : List (String × String)) (r : Response)
    (hparse : (parseRequestURI resource.data).isSome = true)
    (hstatus : r.statusCode < 200 ∨ 299 < r.statusCode) :
    (clientGet c resource hs (.resp r)).result
        = .error (.statusCode r.statusCode
            (r.body.take (readLimit c.limit).toNat)) ∧
    (clientGet c resource hs (.resp r)).respBodyClosed = true ∧
    (r.body.take (readLimit c.limit).toNat).length
        ≤ (readLimit c.limit).toNat ∧
    ((readLimit c.limit).toNat < r.body.length →
      (r.body.take (readLimit c.limit).toNat).length
        = (readLimit c.limit).toNat) ∧
    readLimit 0 = 15 * 1048576 := by
  obtain ⟨u, hu⟩ := Option.isSome_iff_exists.mp hparse
  have hdiv : (r.statusCode / 10 != 20) = true := by
    have : r.statusCode / 10 ≠ 20 := by omega
    simpa [bne_iff_ne] using this
  refine ⟨?_, ?_, ?_, ?_, rfl⟩
  · simp [clientGet, hu, hdiv]
  · simp [clientGet, hu, hdiv]
  · simp [List.length_take]
  · intro h
    simp [List.length_take]
    omega

/-- C5 witness: the theorem applied at a concrete call — configured limit 3,
status 500, body of five bytes — gives a closed body and an error payload of
exactly the first three bytes. -/
theorem get_non2xx_truncated_error_witness :
    (clientGet ⟨⟨"https".data, "h".data, []⟩, [], 3⟩ "/r" []
        (.resp ⟨500, [1, 2, 3, 4, 5]⟩)).result
      = .error (.statusCode 500 [1, 2, 3]) ∧
    (clientGet ⟨⟨"https".data, "h".data, []⟩, [], 3⟩ "/r" []
        (.resp ⟨500, [1, 2, 3, 4, 5]⟩)).respBodyClosed = true := by
  have h := get_non2xx_truncated_error ⟨⟨"https".data, "h".data, []⟩, [], 3⟩
    "/r" [] ⟨500, [1, 2, 3, 4, 5]⟩ (by decide) (by decide)
  exact ⟨h.1.trans (by rfl), h.2.1⟩

/-- C6: with a decode target supplied, a non-2xx final status never invokes
the decoder and leaves the caller's destination unmodified; conversely a
decode is only ever attempted when the status lies in the 2xx class. -/
theorem post_non2xx_never_decodes {α : Type} (c : Client) (resource : String)
    (hs : List (String × String)) (r : Response) (hasTarget : Bool)
    (fn : List Nat → Option α) (dest0 : α)
    (hparse : (parseRequestURI resource.data).isSome = true) :
    ((r.statusCode < 200 ∨ 299 < r.statusCode) →
      (clientPost c resource hs (.resp r) hasTarget fn dest0).decodeAttempted
          = false ∧
      (clientPost c resource hs (.resp r) hasTarget fn dest0).dest = dest0) ∧
    ((clientPost c resource hs (.resp r) hasTarget fn dest0).decodeAttempted
        = true →
      200 ≤ r.statusCode ∧ r.statusCode ≤ 299) := by
  obtain ⟨u, hu⟩ := Option.isSome_iff_exists.mp hparse
  constructor
  · intro hstatus
    have hdiv : (r.statusCode / 10 != 20) = true := by
      have : r.statusCode / 10 ≠ 20 := by omega
      simpa [bne_iff_ne] using this
    constructor <;> simp [clientPost, hu, hdiv]
  · intro hdec
    by_cases hdiv : r.statusCode / 10 = 20
    · omega
    · exfalso
      have hdiv' : (r.statusCode / 10 != 20) = true := by
        simpa [bne_iff_ne] using hdiv
      simp [clientPost, hu, hdiv'] at hdec

/-- C6 witness: the theorem applied at a concrete call — status 500 with a
decode target and initial destination 0 — leaves the destination at 0 with
the decoder never invoked. -/
theorem post_non2xx_never_decodes_witness :
    (clientPost ⟨⟨"https".data, "h".data, []⟩, [], 0⟩ "/r" []
        (.resp ⟨500, [111]⟩) true (fun _ => some 42) 0).decodeAttempted
      = false ∧
    (clientPost ⟨⟨"https".data, "h".data, []⟩, [], 0⟩ "/r" []
        (.resp ⟨500, [111]⟩) true (fun _ => some 42) 0).dest = 0 :=
  (post_non2xx_never_decodes ⟨⟨"https".data, "h".data, []⟩, [], 0⟩ "/r" []
    ⟨500, [111]⟩ true (fun _ => some 42) 0 (by decide)).1 (by decide)

/-- C7: with a rate limiter configured, every quota check uses the client's
base address as the key — the same key whatever the resource argument is —
and the gate loop sleeps each denial's retry-after and re-checks without any
bound, aborts with the limiter's error before any request is sent when the
backing store fails, and sends the request only once admitted. -/
theorem rateLimiter_keyed_by_base (c : Client) (resource : String)
    (lim : Nat → LimiterReply) (d : Nat → Nat) (n fuel : Nat)
    (hparse : (parseRequestURI resource.data).isSome = true)
    (hlim : ∀ i, i < n → lim i = .limited (d i)) (hfuel : n < fuel) :
    (clientGetGate c resource (some lim) fuel).quotaKey
        = some (urlString c.baseUrl) ∧
    (∀ e, lim n = .err e →
      clientGetGate c resource (some lim) fuel
        = ⟨some (urlString c.baseUrl), .aborted e,
            (List.range n).map d, false⟩) ∧
    (lim n = .ok →
      clientGetGate c resource (some lim) fuel
        = ⟨some (urlString c.baseUrl), .admitted,
            (List.range n).map d, true⟩) := by
  obtain ⟨u, hu⟩ := Option.isSome_iff_exists.mp hparse
  refine ⟨?_, ?_, ?_⟩
  · simp [clientGetGate, hu]
  · intro e he
    have hloop := rateLimitLoop_aborts lim d n e fuel hlim he hfuel
    simp [clientGetGate, hu, hloop]
  · intro hok
    have hloop := rateLimitLoop_admits lim d n fuel hlim hok hfuel
    simp [clientGetGate, hu, hloop]

/-- C7 witness: the theorem applied at a concrete run — two denials with
retry-afters 5 and 6, then permission — admits after exactly those sleeps
and proceeds to send. -/
theorem rateLimiter_keyed_by_base_witness :
    clientGetGate ⟨⟨"https".data, "h".data, []⟩, [], 0⟩ "/r"
        (some fun i => if i < 2 then .limited (i + 5) else .ok) 3
      = ⟨some (urlString ⟨"https".data, "h".data, []⟩), .admitted,
          (List.range 2).map (fun i => i + 5), true⟩ :=
  (rateLimiter_keyed_by_base ⟨⟨"https".data, "h".data, []⟩, [], 0⟩ "/r"
    (fun i => if i < 2 then .limited (i + 5) else .ok) (fun i => i + 5) 2 3
    (by decide) (fun i hi => by simp [hi]) (by decide)).2.2 (by decide)

/-- C8: with base address `https://api.example.com`, a Get of `/resource`
parses the resource as a relative reference, resolves it to
`https://api.example.com/resource`, and a 200 response with the JSON body
yields no error and a returned response whose body the pipeline has not
closed and still holds the bytes. -/
theorem get_scenario_keeps_body_open :
    parseRequestURI "https://api.example.com".data
      = some ⟨"https".data, "api.example.com".data, []⟩ ∧
    (clientGet ⟨⟨"https".data, "api.example.com".data, []⟩, [], 0⟩
        "/resource" []
        (.resp ⟨200, "\x7b\"status\":\"ok\"\x7d".data.map Char.toNat⟩)).sentUrl
      = some "https://api.example.com/resource".data ∧
    (clientGet ⟨⟨"https".data, "api.example.com".data, []⟩, [], 0⟩
        "/resource" []
        (.resp ⟨200, "\x7b\"status\":\"ok\"\x7d".data.map Char.toNat⟩)).result
      = .ok ⟨200, "\x7b\"status\":\"ok\"\x7d".data.map Char.toNat⟩ ∧
    (clientGet ⟨⟨"https".data, "api.example.com".data, []⟩, [], 0⟩
        "/resource" []
        (.resp ⟨200, "\x7b\"status\":\"ok\"\x7d".data.map Char.toNat⟩)).respBodyClosed
      = false :=
  ⟨rfl, rfl, rfl, rfl⟩

/-- C9: the headers on the outbound request are the client defaults merged
with the per-call headers, defaults applied first: on a key the call headers
bind, the call value wins; on a key they do not bind, the default value (or
absence) is kept. -/
theorem headers_merged_call_wins (c : Client) (resource : String)
    (callHeaders : List (String × String)) (doResult : Outcome) (k v : String)
    (hparse : (parseRequestURI resource.data).isSome = true) :
    (applyHeaders emptyHeader callHeaders k = some v →
      (clientGet c resource callHeaders doResult).sentHeaders k = some v) ∧
    (applyHeaders emptyHeader callHeaders k = none →
      (clientGet c resource callHeaders doResult).sentHeaders k
        = applyHeaders emptyHeader c.headers k) := by
  obtain ⟨u, hu⟩ := Option.isSome_iff_exists.mp hparse
  have hsent : (clientGet c resource callHeaders doResult).sentHeaders
      = applyHeaders (applyHeaders emptyHeader c.headers) callHeaders := by
    cases doResult with
    | err e => simp [clientGet, hu]
    | resp r =>
      by_cases hdiv : (r.statusCode / 10 != 20) = true
      · simp [clientGet, hu, hdiv]
      · simp [clientGet, hu, hdiv]
  constructor
  · intro hk
    rw [hsent, applyHeaders_apply, hk]
  · intro hk
    rw [hsent, applyHeaders_apply, hk]

/-- C9 witness: the theorem applied at a concrete call — defaults bind A and
B, the call re-binds B — gives the call's value for B on the outbound
request. -/
theorem headers_merged_call_wins_witness :
    (clientGet ⟨⟨"https".data, "h".data, []⟩, [("A", "1"), ("B", "2")], 0⟩
        "/r" [("B", "3")] (.resp ⟨200, []⟩)).sentHeaders "B" = some "3" :=
  (headers_merged_call_wins
    ⟨⟨"https".data, "h".data, []⟩, [("A", "1"), ("B", "2")], 0⟩
    "/r" [("B", "3")] (.resp ⟨200, []⟩) "B" "3" (by decide)).1 (by decide)

/-- C10: a zero `Config.Timeout` yields the default of 10 seconds in
nanoseconds, while any non-zero `Config.Timeout` is used directly as a
nanosecond count with no unit conversion — a caller passing 10 gets a
10-nanosecond timeout, not 10 seconds. -/
theorem clientTimeout_no_unit_conversion :
    clientTimeoutNs 0 = 10 * 1000000000 ∧
    (∀ t : Int, t ≠ 0 → clientTimeoutNs t = t) ∧
    clientTimeoutNs 10 = 10 ∧ clientTimeoutNs 10 ≠ 10 * 1000000000 := by
  refine ⟨rfl, fun t ht => ?_, rfl, by decide⟩
  simp [clientTimeoutNs, ht]

/-- C10 witness: the theorem applied at the concrete timeout 10 — the
resulting client timeout is 10 nanoseconds. -/
theorem clientTimeout_no_unit_conversion_witness :
    clientTimeoutNs 10 = 10 :=
  clientTimeout_no_unit_conversion.2.1 10 (by decide)

end Httpc
